import Mathlib

/-!
Verification development for the quiche-saver price-monitoring bot.

The Python sources embedded here are:
- `quichesaver/quichesaver.py` — the Telegram command handlers
  (`add_item`, `remove_item`, `status`) and the background monitoring
  loop `monitor_items`;
- `quichesaver/product.py` — the `Product` class (record creation,
  `get_html`, `get_product_info`, `update_product_info`);
- `quichesaver/parsers.py` — the per-store extraction functions, which
  are treated as external collaborators and appear only through the
  oracle types `ExtractOutcome` / `CreateOutcome`.

Python floats are idealized as exact rationals extended with NaN and
the two infinities (`PyFloat`); machine rounding plays no role in any
property considered here.  External effects (Telegram replies, logging,
the web driver) are modelled as pure data: notifications are collected
in lists, and each network-plus-parse extraction is an oracle value
saying how that call would have ended.
-/

namespace QuicheSaver

/-- Python float values as used by this program: NaN, the two
infinities, and finite values idealized as exact rationals. -/
inductive PyFloat
  | nan
  | inf
  | ninf
  | fin (q : ℚ)
deriving DecidableEq

/-- Python comparison x <= y on floats: any comparison with NaN is
false; -inf is below everything else; +inf is above everything else. -/
def PyFloat.ple : PyFloat → PyFloat → Bool
  | .nan, _ => false
  | _, .nan => false
  | .ninf, _ => true
  | _, .ninf => false
  | _, .inf => true
  | .inf, _ => false
  | .fin a, .fin b => decide (a ≤ b)

/-- Python unary minus on floats (negating NaN yields NaN). -/
def PyFloat.pyNeg : PyFloat → PyFloat
  | .nan => .nan
  | .inf => .ninf
  | .ninf => .inf
  | .fin q => .fin (-q)

/-- Numeric value of a list of decimal digit characters, most
significant first. -/
def natOfDigits (cs : List Char) : Nat :=
  cs.foldl (fun a c => 10 * a + (c.toNat - 48)) 0

/-- Split a character list at every occurrence of the separator, the
way Python's str.split(sep) does for a one-character separator:
consecutive separators and separators at either end produce empty
pieces. -/
def splitOnChar (sep : Char) : List Char → List (List Char)
  | [] => [[]]
  | a :: rest =>
    match splitOnChar sep rest with
    | [] => [[]]
    | g :: gs => if a = sep then [] :: g :: gs else (a :: g) :: gs

/-- Lower-casing of the letters that can occur in the special float
spellings nan, inf and infinity; other characters are unchanged. -/
def lowerChar (c : Char) : Char :=
  if c = 'N' then 'n'
  else if c = 'A' then 'a'
  else if c = 'I' then 'i'
  else if c = 'F' then 'f'
  else if c = 'T' then 't'
  else if c = 'Y' then 'y'
  else c

/-- Check that every character of the list is a decimal digit. -/
def allDigits (cs : List Char) : Bool :=
  cs.all fun c => c.isDigit

/-- Model of Python's builtin float() applied to an unsigned string,
restricted to the shapes a user of this bot can type: the words nan,
inf and infinity in any letter case, or a decimal literal made of
digits with at most one point and at least one digit.  Exponents,
underscores and surrounding whitespace are outside the modelled
fragment. -/
def parseUnsignedFloat (cs : List Char) : Option PyFloat :=
  let low := cs.map lowerChar
  if low = ['n', 'a', 'n'] then some .nan
  else if low = ['i', 'n', 'f'] then some .inf
  else if low = ['i', 'n', 'f', 'i', 'n', 'i', 't', 'y'] then some .inf
  else
    match splitOnChar '.' cs with
    | [a] =>
      if allDigits a && !a.isEmpty then some (.fin (natOfDigits a : ℚ))
      else none
    | [a, b] =>
      if allDigits a && allDigits b && !(a.isEmpty && b.isEmpty) then
        some (.fin (mkRat (natOfDigits (a ++ b)) (10 ^ b.length)))
      else none
    | _ => none

/-- Model of Python's builtin float() on strings (fragment described
at parseUnsignedFloat), adding the optional leading sign. -/
def pyFloatOfString (s : String) : Option PyFloat :=
  match s.toList with
  | '-' :: rest => (parseUnsignedFloat rest).map PyFloat.pyNeg
  | '+' :: rest => parseUnsignedFloat rest
  | cs => parseUnsignedFloat cs

/-- Model of Python's builtin int() on strings: an optional sign
followed by at least one decimal digit.  Surrounding whitespace and
underscores are outside the modelled fragment. -/
def pyIntOfString (s : String) : Option Int :=
  match s.toList with
  | '-' :: rest =>
    if allDigits rest && !rest.isEmpty then some (-(natOfDigits rest : Int))
    else none
  | '+' :: rest =>
    if allDigits rest && !rest.isEmpty then some (natOfDigits rest : Int)
    else none
  | cs =>
    if allDigits cs && !cs.isEmpty then some (natOfDigits cs : Int)
    else none

/-- Model of the call arguments[1].replace(',', '.') in add_item. -/
def replaceCommaDot (s : String) : String :=
  String.mk (s.toList.map fun c => if c = ',' then '.' else c)

/-- The name/price/availability triple produced by one extraction
(the contract every store extraction function satisfies); the name can
be Python None for some stores. -/
structure Info where
  name : Option String
  price : PyFloat
  available : Bool
deriving DecidableEq

/-- The Product record of product.py: url and store are set at
creation, name, price and available are overwritten by each successful
extraction, max_price is the user threshold, and unreachable_count
counts timeout failures (incremented in get_html). -/
structure Product where
  url : String
  store : String
  name : Option String
  price : PyFloat
  available : Bool
  max_price : PyFloat
  unreachable_count : Nat
deriving DecidableEq

instance : Inhabited Product :=
  ⟨⟨"", "", none, .fin 0, false, .fin 0, 0⟩⟩

/-- Product.get_product_info: the current (name, price, available)
snapshot of a record, read before the round updates it. -/
def Product.infoOld (p : Product) : Info :=
  ⟨p.name, p.price, p.available⟩

/-- The registered store identifiers, i.e. the keys of the PARSERS
dictionary of parsers.py (Product.stores). -/
def stores : List String :=
  ["boadica.com.br", "magazineluiza.com.br", "submarino.com.br",
   "americanas.com.br", "shoptime.com.br", "casasbahia.com.br",
   "extra.com.br", "pontofrio.com.br", "kabum.com.br",
   "fastshop.com.br", "amazon.com.br"]

/-- Outcome of the single synchronous extraction performed while a
Product is being created (inside Product.__init__), classified by the
Python exception type it raises, because add_item catches exactly
ValueError and requests.RequestException. -/
inductive CreateOutcome
  | ok (info : Info)
  | failCaught
  | failUncaught
deriving DecidableEq

/-- How Product(url, price) can fail: the store-not-implemented
ValueError raised before any extraction is attempted, or a failure of
the initial extraction, split by whether add_item's except clause
catches the exception type. -/
inductive CreateErr
  | storeNotImplemented
  | extractionCaught
  | extractionUncaught
deriving DecidableEq

/-- Product.__init__: derive the store from the url, raise ValueError
if the store has no registered extraction function (before any network
access), otherwise run one extraction; on success the record is built
with unreachable_count = 0.  storeOf stands for the external
tldextract-based store_domain function, and extract for the outcome
the one extraction call would have. -/
def Product.init (storeOf : String → String) (extract : CreateOutcome)
    (url : String) (max_price : PyFloat) : Except CreateErr Product :=
  let store := storeOf url
  if store ∈ stores then
    match extract with
    | .ok info => .ok ⟨url, store, info.name, info.price, info.available, max_price, 0⟩
    | .failCaught => .error .extractionCaught
    | .failUncaught => .error .extractionUncaught
  else .error .storeNotImplemented

/-- A notification sent to the user during a monitoring round, with
the data interpolated into the message text. -/
inductive Notif
  | restock (name : Option String) (price : PyFloat) (url : String)
  | thresholdMet (name : Option String) (price : PyFloat) (url : String)
deriving DecidableEq

/-- The condition of monitor_items line 53: the freshly extracted info
reports the item available at a price at or below the stored
max_price; such an item is notified and marked for removal. -/
def isMatched (p : Product) (info : Info) : Bool :=
  info.available && info.price.ple p.max_price

/-- The in-place field updates performed by update_product_info on a
successful extraction. -/
def applyInfo (p : Product) (info : Info) : Product :=
  { p with name := info.name, price := info.price, available := info.available }

/-- The notifications produced for one item of a round, in emission
order: the back-in-stock message, then the threshold-met message. -/
def notifsFor (p : Product) (info : Info) : List Notif :=
  (if !p.available && info.available then [Notif.restock info.name info.price p.url] else [])
    ++ (if isMatched p info then [Notif.thresholdMet info.name info.price p.url] else [])

/-- Outcome of one update_product_info call inside a monitoring round:
success, a timeout (which get_html counts in unreachable_count before
re-raising), or any other fetch or parse exception. -/
inductive ExtractOutcome
  | ok (info : Info)
  | failTimeout
  | failOther
deriving DecidableEq

/-- Result of one loop iteration of monitor_items for a single item.
On success the record is updated in place, the notifications are sent
and the matched flag is computed.  On failure the except clause of
monitor_items swallows the extraction exception, but info is left as
the empty dict, so the check of info with the string available raises
an uncaught KeyError: the round crashes on the spot (after the timeout
path has incremented unreachable_count inside get_html). -/
inductive ItemOut
  | cont (updated : Product) (matched : Bool) (notifs : List Notif)
  | crash (updated : Product)
deriving DecidableEq

/-- One item of the monitoring round (monitor_items lines 32-61). -/
def doItem (p : Product) : ExtractOutcome → ItemOut
  | .ok info => .cont (applyInfo p info) (isMatched p info) (notifsFor p info)
  | .failTimeout => .crash { p with unreachable_count := p.unreachable_count + 1 }
  | .failOther => .crash p

/-- Result of one full round of monitor_items: either the round ran to
completion, filtered the matched items out and released the lock, or
it was aborted by the uncaught KeyError, in which case the partially
updated list is left in place (the removal never runs) and the monitor
thread dies. -/
inductive RoundResult
  | ok (products : List Product) (notifs : List Notif)
  | crashed (products : List Product) (notifs : List Notif)
deriving DecidableEq

/-- The product list a round leaves behind. -/
def RoundResult.products : RoundResult → List Product
  | .ok ps _ => ps
  | .crashed ps _ => ps

/-- The notifications a round emitted. -/
def RoundResult.notifs : RoundResult → List Notif
  | .ok _ ns => ns
  | .crashed _ ns => ns

/-- Whether the round was aborted by the uncaught exception. -/
def RoundResult.isCrashed : RoundResult → Bool
  | .ok _ _ => false
  | .crashed _ _ => true

/-- The final list comprehension of monitor_items (lines 64-65): keep
exactly the entries whose matched flag is false, preserving order. -/
def maskFilter {α : Type} : List α → List Bool → List α
  | [], _ => []
  | _ :: _, [] => []
  | p :: ps, b :: bs => if b then maskFilter ps bs else p :: maskFilter ps bs

/-- The for-loop of monitor_items, indexed the way the source runs it:
k items remain, i is the next index into the full shared list ps, ms
is the preallocated matched list and ns the notifications sent so far.
When k reaches zero the matched items are removed in one final
mutation; a failing extraction crashes the round at that point. -/
def roundLoop (f : Nat → ExtractOutcome) :
    Nat → Nat → List Product → List Bool → List Notif → RoundResult
  | 0, _, ps, ms, ns => .ok (maskFilter ps ms) ns
  | k + 1, i, ps, ms, ns =>
    match doItem (ps.getD i default) (f i) with
    | .cont updated m ns1 =>
      roundLoop f k (i + 1) (ps.set i updated) (ms.set i m) (ns ++ ns1)
    | .crash updated => .crashed (ps.set i updated) ns

/-- One complete round of monitor_items over the current product list:
matched is preallocated as a list of len(products) copies of False and
the items are visited in stored order. -/
def monitorRound (f : Nat → ExtractOutcome) (ps : List Product) : RoundResult :=
  roundLoop f ps.length 0 ps (List.replicate ps.length false) []

/-- One iteration of the while-True loop of monitor_items, as a step
of the monitor thread: a completed round yields the next product list
and the loop continues after the sleep; a crashed round re-raises out
of the function body, which terminates the thread, so there is no next
state.  The loop consults no cancellation flag of any kind. -/
def monitorStep (f : Nat → ExtractOutcome) (ps : List Product) : Option (List Product) :=
  match monitorRound f ps with
  | .ok ps1 _ => some ps1
  | .crashed _ _ => none

/-- Record updates of a completed all-successful round from position i
on: every item is overwritten with its freshly extracted fields. -/
def roundUpdatedFrom (g : Nat → Info) : Nat → List Product → List Product
  | _, [] => []
  | i, p :: ps => applyInfo p (g i) :: roundUpdatedFrom g (i + 1) ps

/-- Matched flags of a completed all-successful round from position i
on. -/
def roundMaskFrom (g : Nat → Info) : Nat → List Product → List Bool
  | _, [] => []
  | i, p :: ps => isMatched p (g i) :: roundMaskFrom g (i + 1) ps

/-- Notifications of a completed all-successful round from position i
on, in emission order. -/
def roundNotifsFrom (g : Nat → Info) : Nat → List Product → List Notif
  | _, [] => []
  | i, p :: ps => notifsFor p (g i) ++ roundNotifsFrom g (i + 1) ps

/-- MAX_ITEMS of quichesaver.py line 18. -/
def MAX_ITEMS : Nat := 100

/-- What add_item answers: the usage message when argument validation
fails, the could-not-retrieve message when Product raises ValueError
or requests.RequestException, an exception escaping the handler for
any other creation failure (the user gets no reply), the
too-many-items message, or the success confirmation. -/
inductive AddResult
  | usageError
  | creationError
  | uncaughtExc
  | capacityError
  | added (p : Product)
deriving DecidableEq

/-- The argument list add_item validates: Python computes
text.partition(' ')[2].split(' '), which equals the tail of
text.split(' ') when text contains a space and [''] otherwise. -/
def addArguments (text : String) : List String :=
  match splitOnChar ' ' text.toList with
  | [] => [""]
  | [_] => [""]
  | _ :: rest => rest.map fun cs => String.mk cs

/-- The price conversion of add_item line 110: replace every comma by
a point, then call float(). -/
def parsePrice (s : String) : Option PyFloat :=
  pyFloatOfString (replaceCommaDot s)

/-- add_item of quichesaver.py: validate that the text after the
command word splits into exactly a link and a price that float()
accepts; build the Product (catching only ValueError and
requests.RequestException); under the lock, refuse when the list
already has more than MAX_ITEMS entries, else append.  Returns the
reply outcome together with the product list add_item leaves behind. -/
def add_item (storeOf : String → String) (extract : CreateOutcome)
    (text : String) (ps : List Product) : AddResult × List Product :=
  match addArguments text with
  | [url, priceStr] =>
    match parsePrice priceStr with
    | none => (.usageError, ps)
    | some price =>
      match Product.init storeOf extract url price with
      | .error .storeNotImplemented => (.creationError, ps)
      | .error .extractionCaught => (.creationError, ps)
      | .error .extractionUncaught => (.uncaughtExc, ps)
      | .ok p =>
        if ps.length > MAX_ITEMS then (.capacityError, ps)
        else (.added p, ps ++ [p])
  | _ => (.usageError, ps)

/-- What remove_item answers: the could-not-remove message when int()
fails or pop() raises IndexError, or the removed record. -/
inductive RemoveResult
  | rangeError
  | removed (p : Product)
deriving DecidableEq

/-- Python's sequence index normalization: a negative index counts
from the end of the list. -/
def pyIndex {α : Type} (l : List α) (i : Int) : Int :=
  if i < 0 then i + l.length else i

/-- Python list.pop(i): a negative index is first shifted by the
length; the element is removed and returned when the shifted index is
in range, and IndexError is raised otherwise. -/
def listPop {α : Type} (l : List α) (i : Int) : Option (α × List α) :=
  if 0 ≤ pyIndex l i ∧ pyIndex l i < l.length then
    match l.drop (pyIndex l i).toNat with
    | [] => none
    | a :: rest => some (a, l.take (pyIndex l i).toNat ++ rest)
  else none

/-- The core of remove_item once the position has been parsed: pop the
element at the 1-based position, i.e. at 0-based index position - 1,
with Python's pop semantics; on IndexError reply the error message and
leave the list unchanged. -/
def remove_core (position : Int) (ps : List Product) : RemoveResult × List Product :=
  match listPop ps (position - 1) with
  | none => (.rangeError, ps)
  | some (p, rest) => (.removed p, rest)

/-- The text after the first space of the message, i.e. Python's
text.partition(' ')[2]. -/
def afterFirstSpace (s : String) : String :=
  match splitOnChar ' ' s.toList with
  | _ :: rest@(_ :: _) => String.mk ((rest.intersperse [' ']).flatten)
  | _ => ""

/-- remove_item of quichesaver.py: parse the text after the command
word with int(), subtract one and pop, answering the error message
when either step raises. -/
def remove_item (text : String) (ps : List Product) : RemoveResult × List Product :=
  match pyIntOfString (afterFirstSpace text) with
  | none => (.rangeError, ps)
  | some n => remove_core n ps

/-!
Two-thread machine for the guarded interleaving of one monitoring
round with one concurrent add command.  Both critical sections of the
source acquire the same per-session lock: monitor_items holds it for
the whole round (lines 28-65) and add_item holds it for the capacity
check and append (lines 129-135).  The add command's Product creation
happens before its critical section and is represented by the
pre-built record np.
-/

/-- Program counter of the monitor thread inside one round: before
acquiring the lock, mid-round with k items remaining and i the next
index into the shared list, or finished (the round completed and
released the lock, or the thread died of the uncaught KeyError, which
also releases the lock as the with-statement unwinds). -/
inductive MPC
  | midle
  | mrun (k i : Nat)
  | mdone
deriving DecidableEq

/-- Program counter of the command thread executing one add: before
acquiring the lock, holding the lock, done. -/
inductive APC
  | aidle
  | ahold
  | adone
deriving DecidableEq

/-- Joint state shared between the monitor thread and one add
command: the lock holder (none when free, some true when the monitor
holds it, some false when the add command does), the shared product
list, the monitor's matched list, the notifications emitted so far,
and both program counters. -/
structure CState where
  lock : Option Bool
  products : List Product
  matched : List Bool
  notifs : List Notif
  mpc : MPC
  apc : APC
deriving DecidableEq

/-- Effect of the locked body of add_item on the product list: left
unchanged when the session holds strictly more than MAX_ITEMS records
(the capacity reply), else the new record is appended. -/
def addEff (ps : List Product) (np : Product) : List Product :=
  if ps.length > MAX_ITEMS then ps else ps ++ [np]

/-- One step of the monitor thread: acquire the lock and set up the
round (len(products) is evaluated and matched preallocated after the
acquire; no other thread can interleave there, since every mutation
needs the lock), process one item exactly as roundLoop does, or, once
every item is processed, remove the matched ones and release.  The
write-back of the filtered list and the release are one step here:
the guard keeps the intermediate state invisible to the other thread.
Returns none when the thread is blocked on the lock or finished. -/
def mstep (f : Nat → ExtractOutcome) (s : CState) : Option CState :=
  match s.mpc with
  | .midle =>
    if s.lock = none then
      some { s with lock := some true, mpc := .mrun s.products.length 0,
                    matched := List.replicate s.products.length false }
    else none
  | .mrun 0 _ =>
    some { s with products := maskFilter s.products s.matched, lock := none, mpc := .mdone }
  | .mrun (k + 1) i =>
    match doItem (s.products.getD i default) (f i) with
    | .cont updated m ns1 =>
      some { s with products := s.products.set i updated, matched := s.matched.set i m,
                    notifs := s.notifs ++ ns1, mpc := .mrun k (i + 1) }
    | .crash updated =>
      some { s with products := s.products.set i updated, lock := none, mpc := .mdone }
  | .mdone => none

/-- One step of the add command thread: acquire the lock, or perform
the capacity check, the append and the release (one step: the guard
keeps the intermediate states invisible to the blocked monitor). -/
def astep (np : Product) (s : CState) : Option CState :=
  match s.apc with
  | .aidle =>
    if s.lock = none then some { s with lock := some false, apc := .ahold } else none
  | .ahold =>
    some { s with products := addEff s.products np, lock := none, apc := .adone }
  | .adone => none

/-- Run a schedule: each entry picks a thread (true is the monitor);
a blocked or finished thread leaves the state unchanged. -/
def runSched (f : Nat → ExtractOutcome) (np : Product) : List Bool → CState → CState
  | [], s => s
  | true :: cs, s => runSched f np cs ((mstep f s).getD s)
  | false :: cs, s => runSched f np cs ((astep np s).getD s)

/-- Initial joint state: lock free, both threads before their
critical sections. -/
def initState (ps : List Product) : CState :=
  ⟨none, ps, [], [], .midle, .aidle⟩

/-- Reachability invariant of the two-thread machine: every joint
state is pinned to one of the two serializations of the round and the
add, and the add command can never hold the lock while the monitor is
mid-round. -/
def Inv (f : Nat → ExtractOutcome) (np : Product) (ps : List Product) (s : CState) : Prop :=
  match s.mpc, s.apc with
  | .midle, .aidle => s.lock = none ∧ s.products = ps ∧ s.notifs = []
  | .midle, .ahold => s.lock = some false ∧ s.products = ps ∧ s.notifs = []
  | .midle, .adone => s.lock = none ∧ s.products = addEff ps np ∧ s.notifs = []
  | .mrun k i, .aidle =>
    s.lock = some true
      ∧ roundLoop f k i s.products s.matched s.notifs = monitorRound f ps
  | .mrun _ _, .ahold => False
  | .mrun k i, .adone =>
    s.lock = some true
      ∧ roundLoop f k i s.products s.matched s.notifs = monitorRound f (addEff ps np)
  | .mdone, .aidle => s.lock = none ∧ s.products = (monitorRound f ps).products
  | .mdone, .ahold => s.lock = some false ∧ s.products = (monitorRound f ps).products
  | .mdone, .adone =>
    s.lock = none
      ∧ (s.products = addEff (monitorRound f ps).products np
        ∨ s.products = (monitorRound f (addEff ps np)).products)

/-!
Helper lemmas about list surgery and the round machinery.
-/

theorem set_append_cons {α : Type} (l1 : List α) (a : α) (l2 : List α) (b : α) :
    (l1 ++ a :: l2).set l1.length b = l1 ++ b :: l2 := by
  induction l1 with
  | nil => rfl
  | cons x xs ih => simp [ih]

theorem getD_append_cons {α : Type} (l1 : List α) (a : α) (l2 : List α) (d : α) :
    (l1 ++ a :: l2).getD l1.length d = a := by
  induction l1 with
  | nil => rfl
  | cons x xs ih => simpa using ih

theorem maskFilter_length {α : Type} :
    ∀ (u : List α) (m : List Bool), u.length = m.length →
      (maskFilter u m).length = u.length - m.count true
  | [], _, _ => by simp [maskFilter]
  | _ :: _, [], h => by simp at h
  | p :: ps, b :: bs, h => by
    have hlen : ps.length = bs.length := by simpa using h
    have ih := maskFilter_length ps bs hlen
    have hc : bs.count true ≤ bs.length := List.count_le_length true bs
    cases b
    · show (p :: maskFilter ps bs).length = (p :: ps).length - (false :: bs).count true
      rw [List.count_cons_of_ne (by decide)]
      simp only [List.length_cons, ih]
      omega
    · show (maskFilter ps bs).length = (p :: ps).length - (true :: bs).count true
      rw [List.count_cons_self]
      simp only [List.length_cons, ih]
      omega

theorem maskFilter_sublist {α : Type} :
    ∀ (u : List α) (m : List Bool), (maskFilter u m).Sublist u
  | [], _ => by simp [maskFilter]
  | _ :: _, [] => by simp [maskFilter]
  | p :: ps, b :: bs => by
    cases b
    · exact (maskFilter_sublist ps bs).cons₂ p
    · exact (maskFilter_sublist ps bs).cons p

theorem maskFilter_mem {α : Type} :
    ∀ (u : List α) (m : List Bool) (i : Nat) (hu : i < u.length) (hm : i < m.length),
      m.get ⟨i, hm⟩ = false → u.get ⟨i, hu⟩ ∈ maskFilter u m
  | p :: ps, b :: bs, 0, _, _, hfalse => by
    subst hfalse
    exact List.mem_cons_self _ _
  | p :: ps, b :: bs, i + 1, hu, hm, hfalse => by
    have ih := maskFilter_mem ps bs i (by simpa using hu) (by simpa using hm) (by simpa using hfalse)
    cases b
    · exact List.mem_cons_of_mem p ih
    · exact ih

theorem maskFilter_replicate_false {α : Type} :
    ∀ (u : List α), maskFilter u (List.replicate u.length false) = u
  | [] => rfl
  | p :: ps => by
    simp only [List.length_cons, List.replicate_succ, maskFilter,
      maskFilter_replicate_false ps, if_neg Bool.false_ne_true]

theorem roundUpdatedFrom_length (g : Nat → Info) :
    ∀ (i : Nat) (ps : List Product), (roundUpdatedFrom g i ps).length = ps.length
  | _, [] => rfl
  | i, _ :: ps => by simp [roundUpdatedFrom, roundUpdatedFrom_length g (i + 1) ps]

theorem roundMaskFrom_length (g : Nat → Info) :
    ∀ (i : Nat) (ps : List Product), (roundMaskFrom g i ps).length = ps.length
  | _, [] => rfl
  | i, _ :: ps => by simp [roundMaskFrom, roundMaskFrom_length g (i + 1) ps]

theorem roundUpdatedFrom_get (g : Nat → Info) :
    ∀ (i0 : Nat) (ps : List Product) (i : Nat) (h : i < ps.length)
      (h2 : i < (roundUpdatedFrom g i0 ps).length),
      (roundUpdatedFrom g i0 ps).get ⟨i, h2⟩ = applyInfo (ps.get ⟨i, h⟩) (g (i0 + i))
  | i0, p :: ps, 0, _, _ => by simp [roundUpdatedFrom]
  | i0, p :: ps, i + 1, h, h2 => by
    have ih := roundUpdatedFrom_get g (i0 + 1) ps i (by simpa using h) (by simpa [roundUpdatedFrom] using h2)
    have harith : i0 + 1 + i = i0 + (i + 1) := by omega
    simpa [roundUpdatedFrom, harith] using ih

theorem roundMaskFrom_get (g : Nat → Info) :
    ∀ (i0 : Nat) (ps : List Product) (i : Nat) (h : i < ps.length)
      (h2 : i < (roundMaskFrom g i0 ps).length),
      (roundMaskFrom g i0 ps).get ⟨i, h2⟩ = isMatched (ps.get ⟨i, h⟩) (g (i0 + i))
  | i0, p :: ps, 0, _, _ => by simp [roundMaskFrom]
  | i0, p :: ps, i + 1, h, h2 => by
    have ih := roundMaskFrom_get g (i0 + 1) ps i (by simpa using h) (by simpa [roundMaskFrom] using h2)
    have harith : i0 + 1 + i = i0 + (i + 1) := by omega
    simpa [roundMaskFrom, harith] using ih

theorem roundLoop_ok (g : Nat → Info) :
    ∀ (todo done : List Product) (msdone mstodo : List Bool) (ns : List Notif),
      msdone.length = done.length → mstodo.length = todo.length →
      roundLoop (fun j => .ok (g j)) todo.length done.length
          (done ++ todo) (msdone ++ mstodo) ns
        = .ok (maskFilter (done ++ roundUpdatedFrom g done.length todo)
                          (msdone ++ roundMaskFrom g done.length todo))
              (ns ++ roundNotifsFrom g done.length todo)
  | [], done, msdone, mstodo, ns, h1, h2 => by
    have : mstodo = [] := List.length_eq_zero.mp (by simpa using h2)
    subst this
    simp [roundLoop, roundUpdatedFrom, roundMaskFrom, roundNotifsFrom]
  | p :: rest, done, msdone, mstodo, ns, h1, h2 => by
    cases mstodo with
    | nil => simp at h2
    | cons mb mrest =>
      have h2r : mrest.length = rest.length := by simpa using h2
      have e1 : (done ++ p :: rest).getD done.length default = p := getD_append_cons done p rest default
      have e2 : (done ++ p :: rest).set done.length (applyInfo p (g done.length))
          = done ++ applyInfo p (g done.length) :: rest := set_append_cons done p rest _
      have e3 : (msdone ++ mb :: mrest).set done.length (isMatched p (g done.length))
          = msdone ++ isMatched p (g done.length) :: mrest := by
        rw [← h1]
        exact set_append_cons msdone mb mrest _
      have ih := roundLoop_ok g rest (done ++ [applyInfo p (g done.length)])
        (msdone ++ [isMatched p (g done.length)]) mrest (ns ++ notifsFor p (g done.length))
        (by simp [h1]) h2r
      show roundLoop _ (rest.length + 1) _ _ _ _ = _
      rw [roundLoop]
      rw [e1]
      show roundLoop _ rest.length (done.length + 1) _ _ _ = _
      rw [e2, e3]
      simpa [roundUpdatedFrom, roundMaskFrom, roundNotifsFrom] using ih

theorem monitorRound_ok (g : Nat → Info) (ps : List Product) :
    monitorRound (fun j => .ok (g j)) ps
      = .ok (maskFilter (roundUpdatedFrom g 0 ps) (roundMaskFrom g 0 ps))
            (roundNotifsFrom g 0 ps) := by
  have h := roundLoop_ok g ps [] [] (List.replicate ps.length false) [] rfl
    (by simp)
  simpa [monitorRound] using h

theorem roundLoop_crashed_iff (f : Nat → ExtractOutcome) :
    ∀ (k i : Nat) (ps : List Product) (ms : List Bool) (ns : List Notif),
      (roundLoop f k i ps ms ns).isCrashed = true
        ↔ ∃ j, j < k ∧ ∀ info, f (i + j) ≠ .ok info
  | 0, i, ps, ms, ns => by
    simp [roundLoop, RoundResult.isCrashed]
  | k + 1, i, ps, ms, ns => by
    cases hf : f i with
    | ok info =>
      have hd : doItem (ps.getD i default) (f i) = .cont (applyInfo (ps.getD i default) info)
          (isMatched (ps.getD i default) info) (notifsFor (ps.getD i default) info) := by
        rw [hf]; rfl
      have ih := roundLoop_crashed_iff f k (i + 1) (ps.set i (applyInfo (ps.getD i default) info))
        (ms.set i (isMatched (ps.getD i default) info)) (ns ++ notifsFor (ps.getD i default) info)
      rw [roundLoop, hd]
      rw [ih]
      constructor
      · rintro ⟨j, hj, hne⟩
        refine ⟨j + 1, by omega, ?_⟩
        intro info2
        have : i + 1 + j = i + (j + 1) := by omega
        rw [← this]
        exact hne info2
      · rintro ⟨j, hj, hne⟩
        cases j with
        | zero => exact absurd hf (by simpa using hne info)
        | succ j2 =>
          refine ⟨j2, by omega, ?_⟩
          intro info2
          have : i + (j2 + 1) = i + 1 + j2 := by omega
          rw [← this]
          exact hne info2
    | failTimeout =>
      have hd : doItem (ps.getD i default) (f i)
          = .crash { ps.getD i default with unreachable_count := (ps.getD i default).unreachable_count + 1 } := by
        rw [hf]; rfl
      rw [roundLoop, hd]
      simp only [RoundResult.isCrashed, true_iff]
      refine ⟨0, by omega, ?_⟩
      intro info h
      rw [Nat.add_zero, hf] at h
      exact ExtractOutcome.noConfusion h
    | failOther =>
      have hd : doItem (ps.getD i default) (f i) = .crash (ps.getD i default) := by
        rw [hf]; rfl
      rw [roundLoop, hd]
      simp only [RoundResult.isCrashed, true_iff]
      exact ⟨0, by omega, fun info h => by rw [Nat.add_zero, hf] at h; exact ExtractOutcome.noConfusion h⟩

theorem applyInfo_infoOld (p : Product) : applyInfo p p.infoOld = p := rfl

theorem ple_nan_right (x : PyFloat) : x.ple .nan = false := by
  cases x <;> rfl

theorem listPop_none {α : Type} (l : List α) (i : Int)
    (h : pyIndex l i < 0 ∨ (l.length : Int) ≤ pyIndex l i) : listPop l i = none := by
  unfold listPop
  rw [if_neg]
  rintro ⟨h1, h2⟩
  omega

theorem listPop_valid {α : Type} [Inhabited α] (l : List α) (i : Int) (j : Nat)
    (hj : pyIndex l i = (j : Int)) (hlt : j < l.length) :
    listPop l i = some (l.getD j default, l.eraseIdx j) := by
  unfold listPop
  rw [hj]
  rw [if_pos ⟨by omega, by exact_mod_cast hlt⟩]
  have htn : ((j : Int)).toNat = j := rfl
  rw [htn, List.drop_eq_getElem_cons hlt]
  rw [List.getD_eq_getElem l default hlt, List.eraseIdx_eq_take_drop_succ]

theorem round_same_info (g : Nat → Info) :
    ∀ (i : Nat) (ps : List Product),
      (∀ j (h : j < ps.length), g (i + j) = (ps.get ⟨j, h⟩).infoOld) →
      (∀ p ∈ ps, isMatched p p.infoOld = false) →
      roundUpdatedFrom g i ps = ps
        ∧ roundMaskFrom g i ps = List.replicate ps.length false
        ∧ roundNotifsFrom g i ps = []
  | _, [], _, _ => by simp [roundUpdatedFrom, roundMaskFrom, roundNotifsFrom]
  | i, p :: ps, hg, hth => by
    have hg0 : g i = p.infoOld := by simpa using hg 0 (by simp)
    have hm : isMatched p p.infoOld = false := hth p (List.mem_cons_self p ps)
    have hgs : ∀ j (h : j < ps.length), g (i + 1 + j) = (ps.get ⟨j, h⟩).infoOld := by
      intro j h
      have harith : i + 1 + j = i + (j + 1) := by omega
      rw [harith]
      simpa using hg (j + 1) (by simpa using h)
    have ih := round_same_info g (i + 1) ps hgs (fun q hq => hth q (List.mem_cons_of_mem p hq))
    have hnot : notifsFor p p.infoOld = [] := by
      have hrs : (!p.available && p.infoOld.available) = false := by
        show (!p.available && p.available) = false
        cases p.available <;> rfl
      simp [notifsFor, hrs, hm]
    refine ⟨?_, ?_, ?_⟩
    · simp [roundUpdatedFrom, hg0, applyInfo_infoOld, ih.1]
    · simp [roundMaskFrom, hg0, hm, ih.2.1, List.replicate_succ]
    · simp [roundNotifsFrom, hg0, hnot, ih.2.2]

theorem inv_mstep (f : Nat → ExtractOutcome) (np : Product) (ps : List Product)
    (s s2 : CState) (hs : Inv f np ps s) (h : mstep f s = some s2) : Inv f np ps s2 := by
  cases hmpc : s.mpc with
  | midle =>
    simp only [mstep, hmpc] at h
    cases hapc : s.apc with
    | aidle =>
      simp only [Inv, hmpc, hapc] at hs
      rw [if_pos hs.1] at h
      cases h
      simp only [Inv, hapc]
      exact ⟨by trivial, by rw [hs.2.1, hs.2.2]; rfl⟩
    | ahold =>
      simp only [Inv, hmpc, hapc] at hs
      rw [if_neg (by rw [hs.1]; simp)] at h
      exact Option.noConfusion h
    | adone =>
      simp only [Inv, hmpc, hapc] at hs
      rw [if_pos hs.1] at h
      cases h
      simp only [Inv, hapc]
      exact ⟨by trivial, by rw [hs.2.1, hs.2.2]; rfl⟩
  | mrun k i =>
    cases hapc : s.apc with
    | ahold =>
      simp only [Inv, hmpc, hapc] at hs
    | aidle =>
      simp only [Inv, hmpc, hapc] at hs
      cases k with
      | zero =>
        simp only [mstep, hmpc] at h
        cases h
        simp only [Inv, hapc]
        exact ⟨by trivial, by rw [← hs.2]; rfl⟩
      | succ k2 =>
        simp only [mstep, hmpc] at h
        simp only [roundLoop] at hs
        cases hd : doItem (s.products.getD i default) (f i) with
        | cont updated m ns1 =>
          rw [hd] at h
          cases h
          simp only [hd] at hs
          simp only [Inv, hapc]
          exact ⟨hs.1, hs.2⟩
        | crash updated =>
          rw [hd] at h
          cases h
          simp only [hd] at hs
          simp only [Inv, hapc]
          exact ⟨by trivial, by rw [← hs.2]; rfl⟩
    | adone =>
      simp only [Inv, hmpc, hapc] at hs
      cases k with
      | zero =>
        simp only [mstep, hmpc] at h
        cases h
        simp only [Inv, hapc]
        exact ⟨by trivial, Or.inr (by rw [← hs.2]; rfl)⟩
      | succ k2 =>
        simp only [mstep, hmpc] at h
        simp only [roundLoop] at hs
        cases hd : doItem (s.products.getD i default) (f i) with
        | cont updated m ns1 =>
          rw [hd] at h
          cases h
          simp only [hd] at hs
          simp only [Inv, hapc]
          exact ⟨hs.1, hs.2⟩
        | crash updated =>
          rw [hd] at h
          cases h
          simp only [hd] at hs
          simp only [Inv, hapc]
          exact ⟨by trivial, Or.inr (by rw [← hs.2]; rfl)⟩
  | mdone =>
    simp only [mstep, hmpc] at h
    exact Option.noConfusion h

theorem inv_astep (f : Nat → ExtractOutcome) (np : Product) (ps : List Product)
    (s s2 : CState) (hs : Inv f np ps s) (h : astep np s = some s2) : Inv f np ps s2 := by
  cases hapc : s.apc with
  | aidle =>
    simp only [astep, hapc] at h
    cases hmpc : s.mpc with
    | midle =>
      simp only [Inv, hmpc, hapc] at hs
      rw [if_pos hs.1] at h
      cases h
      simp only [Inv, hmpc]
      exact ⟨by trivial, hs.2.1, hs.2.2⟩
    | mrun k i =>
      simp only [Inv, hmpc, hapc] at hs
      rw [if_neg (by rw [hs.1]; simp)] at h
      exact Option.noConfusion h
    | mdone =>
      simp only [Inv, hmpc, hapc] at hs
      rw [if_pos hs.1] at h
      cases h
      simp only [Inv, hmpc]
      exact ⟨by trivial, hs.2⟩
  | ahold =>
    simp only [astep, hapc] at h
    cases h
    cases hmpc : s.mpc with
    | midle =>
      simp only [Inv, hmpc, hapc] at hs
      simp only [Inv, hmpc]
      exact ⟨by trivial, by rw [hs.2.1], hs.2.2⟩
    | mrun k i =>
      simp only [Inv, hmpc, hapc] at hs
    | mdone =>
      simp only [Inv, hmpc, hapc] at hs
      simp only [Inv, hmpc]
      exact ⟨by trivial, Or.inl (by rw [hs.2])⟩
  | adone =>
    simp only [astep, hapc] at h
    exact Option.noConfusion h

theorem inv_runSched (f : Nat → ExtractOutcome) (np : Product) (ps : List Product) :
    ∀ (sched : List Bool) (s : CState), Inv f np ps s → Inv f np ps (runSched f np sched s)
  | [], _, hs => hs
  | true :: cs, s, hs => by
    rw [runSched]
    cases hstep : mstep f s with
    | none =>
      rw [Option.getD_none]
      exact inv_runSched f np ps cs s hs
    | some s2 =>
      rw [Option.getD_some]
      exact inv_runSched f np ps cs s2 (inv_mstep f np ps s s2 hs hstep)
  | false :: cs, s, hs => by
    rw [runSched]
    cases hstep : astep np s with
    | none =>
      rw [Option.getD_none]
      exact inv_runSched f np ps cs s hs
    | some s2 =>
      rw [Option.getD_some]
      exact inv_runSched f np ps cs s2 (inv_astep f np ps s s2 hs hstep)

/-!
Claim theorems.
-/

/-- C1: the claim says that when extraction fails for the item at
position k, that item's failureCount is incremented, the rest of its
record is unchanged, no exception propagates out of the round, and
every later item is still processed in the same round.  The code
behaves otherwise: after the except clause swallows the extraction
error, info is still the empty dict and the check of info at the key
available raises an uncaught KeyError, aborting the round.  Evaluating
the round at a failing first item shows the crash: the second item is
never processed (its successful extraction would have produced a
restock notification, but the notification list stays empty), both
records keep their stale state, a parse failure does not touch
unreachable_count, and a timeout increments unreachable_count inside
get_html just before the round dies. -/
theorem c1_extraction_failure_crashes_round :
    monitorRound
        (fun i => if i = 0 then .failOther else .ok ⟨some "B", .fin 60, true⟩)
        [⟨"u1", "amazon.com.br", some "A", .fin 100, true, .fin 90, 0⟩,
         ⟨"u2", "amazon.com.br", some "B", .fin 0, false, .fin 50, 0⟩]
      = .crashed
          [⟨"u1", "amazon.com.br", some "A", .fin 100, true, .fin 90, 0⟩,
           ⟨"u2", "amazon.com.br", some "B", .fin 0, false, .fin 50, 0⟩] []
    ∧ monitorRound (fun _ => .failTimeout)
        [⟨"u1", "amazon.com.br", some "A", .fin 100, true, .fin 90, 0⟩]
      = .crashed [⟨"u1", "amazon.com.br", some "A", .fin 100, true, .fin 90, 1⟩] [] := by
  decide

/-- C7: the concrete example round of the spec.  The session holds
A(price 100, maxPrice 90, available) and B(unavailable, maxPrice 50);
a round extracting A to (80, available) and B to (60, available)
notifies threshold-met for A and removes it, notifies restock for B
and retains it updated in place, and ends with the sequence [B] with
available true and price 60. -/
theorem c7_example_round :
    monitorRound
        (fun i => if i = 0 then .ok ⟨some "A", .fin 80, true⟩ else .ok ⟨some "B", .fin 60, true⟩)
        [⟨"urlA", "americanas.com.br", some "A", .fin 100, true, .fin 90, 0⟩,
         ⟨"urlB", "americanas.com.br", some "B", .fin 0, false, .fin 50, 0⟩]
      = .ok [⟨"urlB", "americanas.com.br", some "B", .fin 60, true, .fin 50, 0⟩]
            [.thresholdMet (some "A") (.fin 80) "urlA",
             .restock (some "B") (.fin 60) "urlB"] := by
  decide

/-- C2: in a round where every extraction succeeds, the loop completes
and the removal is one final mask filter over original positions; the
mask at position i is exactly the condition that the freshly extracted
state is available at a price at or below that item's stored
max_price; the resulting length is the previous length minus the
count of matched positions; and the survivors form a sublist of the
updated records, so their relative order is preserved. -/
theorem c2_round_removal (g : Nat → Info) (ps : List Product) :
    monitorRound (fun j => .ok (g j)) ps
        = .ok (maskFilter (roundUpdatedFrom g 0 ps) (roundMaskFrom g 0 ps))
              (roundNotifsFrom g 0 ps)
    ∧ (∀ i (h : i < ps.length) (h2 : i < (roundMaskFrom g 0 ps).length),
        (roundMaskFrom g 0 ps).get ⟨i, h2⟩
          = ((g i).available && (g i).price.ple (ps.get ⟨i, h⟩).max_price))
    ∧ (monitorRound (fun j => .ok (g j)) ps).products.length
        = ps.length - (roundMaskFrom g 0 ps).count true
    ∧ ((monitorRound (fun j => .ok (g j)) ps).products).Sublist (roundUpdatedFrom g 0 ps) := by
  have h1 := monitorRound_ok g ps
  refine ⟨h1, ?_, ?_, ?_⟩
  · intro i h h2
    have := roundMaskFrom_get g 0 ps i h h2
    simpa [isMatched] using this
  · rw [h1]
    show (maskFilter (roundUpdatedFrom g 0 ps) (roundMaskFrom g 0 ps)).length = _
    rw [maskFilter_length _ _ (by rw [roundUpdatedFrom_length, roundMaskFrom_length])]
    rw [roundUpdatedFrom_length]
  · rw [h1]
    exact maskFilter_sublist _ _

/-- C2 witness: the characterization evaluated on a concrete round,
one item matched and removed out of two. -/
theorem c2_round_removal_witness :
    (monitorRound
        (fun j => .ok (if j = 0 then ⟨some "A", .fin 8, true⟩ else ⟨some "B", .fin 60, true⟩))
        [⟨"wA", "kabum.com.br", some "A", .fin 100, true, .fin 90, 0⟩,
         ⟨"wB", "kabum.com.br", some "B", .fin 70, true, .fin 50, 0⟩]).products.length
      = 2 - (roundMaskFrom
          (fun j => if j = 0 then ⟨some "A", .fin 8, true⟩ else ⟨some "B", .fin 60, true⟩) 0
          [⟨"wA", "kabum.com.br", some "A", .fin 100, true, .fin 90, 0⟩,
           ⟨"wB", "kabum.com.br", some "B", .fin 70, true, .fin 50, 0⟩]).count true :=
  (c2_round_removal
    (fun j => if j = 0 then ⟨some "A", .fin 8, true⟩ else ⟨some "B", .fin 60, true⟩)
    [⟨"wA", "kabum.com.br", some "A", .fin 100, true, .fin 90, 0⟩,
     ⟨"wB", "kabum.com.br", some "B", .fin 70, true, .fin 50, 0⟩]).2.2.1

/-- C6 counterexample: the claim asserts that a round in which every
extraction succeeds and no item's extracted price or availability
differs from its previous value emits zero notifications and leaves
the sequence unchanged.  Two concrete rounds refute it: an item whose
unchanged state already satisfies available and price at or below
max_price is notified and removed (first input), and an item whose
extracted name differs while price and availability are unchanged has
its record rewritten in place, changing the sequence contents (second
input). -/
theorem c6_counterexample :
    ((monitorRound (fun _ => .ok ⟨some "A", .fin 50, true⟩)
        [⟨"u", "amazon.com.br", some "A", .fin 50, true, .fin 90, 0⟩]).notifs ≠ []
      ∧ (monitorRound (fun _ => .ok ⟨some "A", .fin 50, true⟩)
          [⟨"u", "amazon.com.br", some "A", .fin 50, true, .fin 90, 0⟩]).products
        ≠ [⟨"u", "amazon.com.br", some "A", .fin 50, true, .fin 90, 0⟩])
    ∧ (monitorRound (fun _ => .ok ⟨some "A2", .fin 10, true⟩)
        [⟨"u", "amazon.com.br", some "A", .fin 10, true, .fin 5, 0⟩]).products
      ≠ [⟨"u", "amazon.com.br", some "A", .fin 10, true, .fin 5, 0⟩] := by
  decide

/-- C6 amended: a round in which every extraction succeeds, every
item's extracted name, price and availability all equal the previous
values, and no item's current state already satisfies available with
price at or below max_price, emits zero notifications and leaves the
sequence unchanged in order and contents. -/
theorem c6_amended (g : Nat → Info) (ps : List Product)
    (hsame : ∀ j (h : j < ps.length), g j = (ps.get ⟨j, h⟩).infoOld)
    (hth : ∀ p ∈ ps, isMatched p p.infoOld = false) :
    monitorRound (fun j => .ok (g j)) ps = .ok ps [] := by
  have h := round_same_info g 0 ps (by simpa using hsame) hth
  rw [monitorRound_ok g ps, h.1, h.2.1, h.2.2, maskFilter_replicate_false]

/-- C6 witness: the amended statement applied to a concrete one-item
session whose state does not already satisfy the threshold. -/
theorem c6_amended_witness :
    monitorRound (fun _ => .ok ⟨some "W", .fin 10, false⟩)
        [⟨"w", "extra.com.br", some "W", .fin 10, false, .fin 5, 0⟩]
      = .ok [⟨"w", "extra.com.br", some "W", .fin 10, false, .fin 5, 0⟩] [] := by
  refine c6_amended _ _ ?_ ?_
  · intro j h
    match j, h with
    | 0, _ => rfl
  · intro p hp
    rw [List.mem_singleton] at hp
    subst hp
    rfl

/-- C8 counterexample: the claim asserts that no error condition
arising inside the loop terminates the Monitor Loop.  A round whose
only item fails extraction terminates the loop: the uncaught KeyError
propagates out of the loop body and the monitor thread has no next
state. -/
theorem c8_counterexample :
    monitorStep (fun _ => .failOther)
        [⟨"u", "kabum.com.br", some "K", .fin 10, true, .fin 5, 0⟩] = none := by
  decide

/-- C8 amended: the Monitor Loop of the code consults no cancellation
signal at all; one loop iteration fails to produce a successor state
exactly when some extraction in the round fails (the uncaught KeyError
then kills the thread), and with an all-successful oracle the loop
always continues, so the only exit from the loop is that error. -/
theorem c8_amended (f : Nat → ExtractOutcome) (ps : List Product) :
    (monitorStep f ps = none ↔ ∃ j, j < ps.length ∧ ∀ info, f j ≠ .ok info)
    ∧ (∀ g : Nat → Info, ∃ ps2, monitorStep (fun j => .ok (g j)) ps = some ps2) := by
  constructor
  · have hiff := roundLoop_crashed_iff f ps.length 0 ps (List.replicate ps.length false) []
    have hcr : monitorStep f ps = none ↔ (monitorRound f ps).isCrashed = true := by
      cases h : monitorRound f ps <;> simp [monitorStep, h, RoundResult.isCrashed]
    rw [hcr]
    show (roundLoop f ps.length 0 ps (List.replicate ps.length false) []).isCrashed = true ↔ _
    rw [hiff]
    simp
  · intro g
    exact ⟨_, by rw [monitorStep, monitorRound_ok g ps]⟩

/-- C8 witness: the amended characterization applied to a concrete
failing round. -/
theorem c8_amended_witness :
    monitorStep (fun _ => .failTimeout)
        [⟨"u", "boadica.com.br", some "D", .fin 10, true, .fin 5, 0⟩] = none :=
  (c8_amended (fun _ => .failTimeout)
    [⟨"u", "boadica.com.br", some "D", .fin 10, true, .fin 5, 0⟩]).1.mpr
    ⟨0, by decide, fun info h => ExtractOutcome.noConfusion h⟩

/-- C10: the add command accepts any price string that float() accepts
after commas are replaced by points, negative numbers, nan and inf
included, and stores the parsed value unchecked as the new record's
max_price; and an item whose max_price is NaN can never be matched for
automatic removal, because the Python comparison price at or below NaN
is false, so the item survives every completed round (updated in
place). -/
theorem c10_price_validation (storeOf : String → String) (info : Info)
    (text url priceStr : String) (v : PyFloat) (ps : List Product) :
    (addArguments text = [url, priceStr] → parsePrice priceStr = some v →
      storeOf url ∈ stores → ps.length ≤ MAX_ITEMS →
      add_item storeOf (.ok info) text ps
        = (.added ⟨url, storeOf url, info.name, info.price, info.available, v, 0⟩,
           ps ++ [⟨url, storeOf url, info.name, info.price, info.available, v, 0⟩]))
    ∧ parsePrice "nan" = some .nan
    ∧ parsePrice "inf" = some .inf
    ∧ parsePrice "-3" = some (.fin (-3))
    ∧ (∀ (g : Nat → Info) (qs : List Product) (i : Nat) (h : i < qs.length),
        (qs.get ⟨i, h⟩).max_price = .nan →
        applyInfo (qs.get ⟨i, h⟩) (g i) ∈ (monitorRound (fun j => .ok (g j)) qs).products) := by
  refine ⟨?_, by decide, by decide, by decide, ?_⟩
  · intro h1 h2 h3 h4
    simp only [MAX_ITEMS] at h4
    simp only [add_item, h1, h2, Product.init, if_pos h3, MAX_ITEMS]
    rw [if_neg (by omega)]
  · intro g qs i h hnan
    rw [monitorRound_ok g qs]
    show applyInfo (qs.get ⟨i, h⟩) (g i)
        ∈ maskFilter (roundUpdatedFrom g 0 qs) (roundMaskFrom g 0 qs)
    have hu : i < (roundUpdatedFrom g 0 qs).length := by rw [roundUpdatedFrom_length]; exact h
    have hm : i < (roundMaskFrom g 0 qs).length := by rw [roundMaskFrom_length]; exact h
    have hmask : (roundMaskFrom g 0 qs).get ⟨i, hm⟩ = false := by
      rw [roundMaskFrom_get g 0 qs i h hm]
      simp only [isMatched, hnan, ple_nan_right, Bool.and_false]
    have hmem := maskFilter_mem _ _ i hu hm hmask
    rwa [roundUpdatedFrom_get g 0 qs i h hu, Nat.zero_add] at hmem

/-- C10 witness: the string nan passes add validation end to end and
is stored as the max_price of the appended record. -/
theorem c10_price_validation_witness :
    add_item (fun _ => "amazon.com.br") (.ok ⟨some "N", .fin 100, true⟩) "/add u nan" []
      = (.added ⟨"u", "amazon.com.br", some "N", .fin 100, true, .nan, 0⟩,
         [⟨"u", "amazon.com.br", some "N", .fin 100, true, .nan, 0⟩]) :=
  (c10_price_validation (fun _ => "amazon.com.br") ⟨some "N", .fin 100, true⟩
    "/add u nan" "u" "nan" .nan []).1 (by decide) (by decide) (by decide) (by decide)

/-- C3 counterexample: the claim says remove fails with an
out-of-range error exactly when the 1-based position is not between 1
and the sequence length.  Python's pop accepts negative indices, so
the code succeeds on positions the claim declares invalid: position 0
becomes index -1 and removes the last record, and position -1 becomes
index -2 and removes the first of two records. -/
theorem c3_counterexample :
    remove_core 0 [⟨"u", "extra.com.br", some "E", .fin 10, true, .fin 5, 0⟩]
      = (.removed ⟨"u", "extra.com.br", some "E", .fin 10, true, .fin 5, 0⟩, [])
    ∧ remove_core (-1)
        [⟨"uA", "extra.com.br", some "A", .fin 10, true, .fin 5, 0⟩,
         ⟨"uB", "extra.com.br", some "B", .fin 20, true, .fin 6, 0⟩]
      = (.removed ⟨"uA", "extra.com.br", some "A", .fin 10, true, .fin 5, 0⟩,
         [⟨"uB", "extra.com.br", some "B", .fin 20, true, .fin 6, 0⟩]) := by
  decide

/-- C3 amended: for a sequence of length n, remove fails with the
out-of-range error, leaving the sequence unchanged, exactly when the
position is outside the interval from 1 - n to n; a position between 1
and n removes and returns the record at that 1-based position, and a
position between 1 - n and 0 aliases through Python's negative
indexing to the record at 0-based index position - 1 + n. -/
theorem c3_amended (ps : List Product) (pos : Int) :
    ((pos < 1 - (ps.length : Int) ∨ (ps.length : Int) < pos) →
      remove_core pos ps = (.rangeError, ps))
    ∧ (1 ≤ pos → pos ≤ (ps.length : Int) →
      remove_core pos ps
        = (.removed (ps.getD (pos - 1).toNat default), ps.eraseIdx (pos - 1).toNat))
    ∧ (1 - (ps.length : Int) ≤ pos → pos ≤ 0 →
      remove_core pos ps
        = (.removed (ps.getD (pos - 1 + ps.length).toNat default),
           ps.eraseIdx (pos - 1 + ps.length).toNat)) := by
  refine ⟨?_, ?_, ?_⟩
  · intro h
    have hout : pyIndex ps (pos - 1) < 0 ∨ (ps.length : Int) ≤ pyIndex ps (pos - 1) := by
      unfold pyIndex
      split <;> omega
    simp [remove_core, listPop_none ps (pos - 1) hout]
  · intro h1 h2
    have hj : pyIndex ps (pos - 1) = (((pos - 1).toNat : Nat) : Int) := by
      unfold pyIndex
      split <;> omega
    have hlt : (pos - 1).toNat < ps.length := by omega
    simp [remove_core, listPop_valid ps (pos - 1) (pos - 1).toNat hj hlt]
  · intro h1 h2
    have hj : pyIndex ps (pos - 1) = (((pos - 1 + ps.length).toNat : Nat) : Int) := by
      unfold pyIndex
      split <;> omega
    have hlt : (pos - 1 + ps.length).toNat < ps.length := by omega
    simp [remove_core, listPop_valid ps (pos - 1) (pos - 1 + ps.length).toNat hj hlt]

/-- C3 witness: the valid-position branch of the amended statement at
position 2 of a two-item sequence. -/
theorem c3_amended_witness :
    remove_core 2
        [⟨"vA", "extra.com.br", some "A", .fin 10, true, .fin 5, 0⟩,
         ⟨"vB", "extra.com.br", some "B", .fin 20, true, .fin 6, 0⟩]
      = (.removed ⟨"vB", "extra.com.br", some "B", .fin 20, true, .fin 6, 0⟩,
         [⟨"vA", "extra.com.br", some "A", .fin 10, true, .fin 5, 0⟩]) :=
  ((c3_amended
      [⟨"vA", "extra.com.br", some "A", .fin 10, true, .fin 5, 0⟩,
       ⟨"vB", "extra.com.br", some "B", .fin 20, true, .fin 6, 0⟩] 2).2.1
    (by decide) (by decide)).trans (by decide)

/-- C4 counterexample: the claim says add fails with the capacity
error when the session already holds at or above 100 items.  The code
compares with a strict greater-than, so an add into a session holding
exactly 100 items succeeds and appends a 101st record. -/
theorem c4_counterexample :
    (List.replicate 100 (default : Product)).length = MAX_ITEMS
    ∧ add_item (fun _ => "amazon.com.br") (.ok ⟨some "N", .fin 9, true⟩) "/add u 10"
        (List.replicate 100 (default : Product))
      = (.added ⟨"u", "amazon.com.br", some "N", .fin 9, true, .fin 10, 0⟩,
         List.replicate 100 (default : Product)
           ++ [⟨"u", "amazon.com.br", some "N", .fin 9, true, .fin 10, 0⟩]) := by
  decide

/-- C4 amended: with valid arguments, a registered store and a
successful creation extraction, add fails with the capacity error and
leaves the sequence unchanged exactly when the session holds strictly
more than MAX_ITEMS = 100 records, and otherwise appends the newly
created record at the end of the sequence. -/
theorem c4_amended (storeOf : String → String) (info : Info)
    (text url priceStr : String) (v : PyFloat) (ps : List Product)
    (h1 : addArguments text = [url, priceStr]) (h2 : parsePrice priceStr = some v)
    (h3 : storeOf url ∈ stores) :
    (MAX_ITEMS < ps.length → add_item storeOf (.ok info) text ps = (.capacityError, ps))
    ∧ (ps.length ≤ MAX_ITEMS →
        add_item storeOf (.ok info) text ps
          = (.added ⟨url, storeOf url, info.name, info.price, info.available, v, 0⟩,
             ps ++ [⟨url, storeOf url, info.name, info.price, info.available, v, 0⟩])) := by
  constructor
  · intro h4
    simp only [add_item, h1, h2, Product.init, if_pos h3]
    rw [if_pos h4]
  · intro h4
    simp only [add_item, h1, h2, Product.init, if_pos h3]
    rw [if_neg (by omega)]

/-- C4 witness: an add into an empty session appends the created
record. -/
theorem c4_amended_witness :
    add_item (fun _ => "submarino.com.br") (.ok ⟨some "S", .fin 7, true⟩) "/add u 2" []
      = (.added ⟨"u", "submarino.com.br", some "S", .fin 7, true, .fin 2, 0⟩,
         [⟨"u", "submarino.com.br", some "S", .fin 7, true, .fin 2, 0⟩]) :=
  (c4_amended (fun _ => "submarino.com.br") ⟨some "S", .fin 7, true⟩ "/add u 2" "u" "2"
    (.fin 2) [] (by decide) (by decide) (by decide)).2 (by decide)

/-- C5 counterexample: the claim says any fetch or parse failure of
the creation extraction is surfaced immediately to the caller as a
user-visible error.  add_item catches only ValueError and
requests.RequestException, while the fetch raises the selenium
TimeoutException and the extraction functions raise attribute, index
and key errors; such a failure escapes the handler uncaught and the
user receives no reply at all, which is not the user-visible
creation-error message. -/
theorem c5_counterexample :
    add_item (fun _ => "amazon.com.br") .failUncaught "/add u 10" []
      = (.uncaughtExc, [])
    ∧ AddResult.uncaughtExc ≠ AddResult.creationError := by
  decide

/-- C5 amended: product creation first derives the store from the url
and, when the store has no registered extraction function, fails with
the configuration ValueError whatever the extraction would have done
(no extraction is attempted); with a registered store one synchronous
extraction runs, a successful one yields the record with
unreachable_count 0, and a failing one aborts creation with no record;
through add_item the configuration error and extraction failures of
type ValueError or requests.RequestException are surfaced as the
user-visible error reply with the list unchanged, while failures of
any other exception type escape the handler uncaught, with the list
unchanged but no user-visible reply. -/
theorem c5_amended (storeOf : String → String) (u pstr text : String) (mp : PyFloat)
    (ps : List Product) :
    (storeOf u ∉ stores →
      ∀ e : CreateOutcome, Product.init storeOf e u mp = .error .storeNotImplemented)
    ∧ (storeOf u ∈ stores →
        (∀ info : Info, Product.init storeOf (.ok info) u mp
            = .ok ⟨u, storeOf u, info.name, info.price, info.available, mp, 0⟩)
        ∧ Product.init storeOf .failCaught u mp = .error .extractionCaught
        ∧ Product.init storeOf .failUncaught u mp = .error .extractionUncaught)
    ∧ (addArguments text = [u, pstr] → parsePrice pstr = some mp →
        (storeOf u ∉ stores → ∀ e, add_item storeOf e text ps = (.creationError, ps))
        ∧ (storeOf u ∈ stores →
            add_item storeOf .failCaught text ps = (.creationError, ps)
            ∧ add_item storeOf .failUncaught text ps = (.uncaughtExc, ps))) := by
  refine ⟨?_, ?_, ?_⟩
  · intro h e
    cases e <;> simp [Product.init, if_neg h]
  · intro h
    refine ⟨fun info => ?_, ?_, ?_⟩ <;> simp [Product.init, if_pos h]
  · intro h1 h2
    constructor
    · intro h e
      cases e <;> simp [add_item, h1, h2, Product.init, if_neg h]
    · intro h
      constructor <;> simp [add_item, h1, h2, Product.init, if_pos h]

/-- C5 witness: a successful creation builds the record with
unreachable_count 0, and a caught creation failure produces the
user-visible error reply with the list unchanged. -/
theorem c5_amended_witness :
    Product.init (fun _ => "magazineluiza.com.br") (.ok ⟨some "M", .fin 30, true⟩) "um" (.fin 20)
      = .ok ⟨"um", "magazineluiza.com.br", some "M", .fin 30, true, .fin 20, 0⟩
    ∧ add_item (fun _ => "nostore.example") .failCaught "/add um 20" [] = (.creationError, []) := by
  constructor
  · exact ((c5_amended (fun _ => "magazineluiza.com.br") "um" "20" "/add um 20" (.fin 20)
      []).2.1 (by decide)).1 ⟨some "M", .fin 30, true⟩
  · exact ((c5_amended (fun _ => "nostore.example") "um" "20" "/add um 20" (.fin 20)
      []).2.2 (by decide) (by decide)).1 (by decide) CreateOutcome.failCaught

/-- C9: an add command issued while a monitoring round executes is
neither lost nor duplicated: because both critical sections acquire
the same session lock, for every interleaving of the two threads in
which both have finished, the final product list is one of the two
serializations, the round's result with the add applied after it, or
the add applied first with the round running over the extended list;
no schedule can interleave the append into the middle of the round. -/
theorem c9_add_serializes_with_round (f : Nat → ExtractOutcome) (np : Product)
    (ps : List Product) (sched : List Bool)
    (hm : (runSched f np sched (initState ps)).mpc = .mdone)
    (ha : (runSched f np sched (initState ps)).apc = .adone) :
    (runSched f np sched (initState ps)).products
        = addEff (monitorRound f ps).products np
    ∨ (runSched f np sched (initState ps)).products
        = (monitorRound f (addEff ps np)).products := by
  have hinv := inv_runSched f np ps sched (initState ps)
    (by simp [Inv, initState])
  simp only [Inv, hm, ha] at hinv
  exact hinv.2

/-- C9 witness: a concrete schedule in which the monitor runs its
round first and the add command then appends. -/
theorem c9_add_serializes_with_round_witness :
    (runSched (fun _ => .failOther) ⟨"w", "amazon.com.br", some "W", .fin 3, true, .fin 2, 0⟩
          [true, true, false, false] (initState [])).products
        = addEff (monitorRound (fun _ => .failOther) ([] : List Product)).products
            ⟨"w", "amazon.com.br", some "W", .fin 3, true, .fin 2, 0⟩
    ∨ (runSched (fun _ => .failOther) ⟨"w", "amazon.com.br", some "W", .fin 3, true, .fin 2, 0⟩
          [true, true, false, false] (initState [])).products
        = (monitorRound (fun _ => .failOther)
            (addEff ([] : List Product) ⟨"w", "amazon.com.br", some "W", .fin 3, true, .fin 2, 0⟩)).products :=
  c9_add_serializes_with_round (fun _ => .failOther)
    ⟨"w", "amazon.com.br", some "W", .fin 3, true, .fin 2, 0⟩ [] [true, true, false, false]
    (by decide) (by decide)

end QuicheSaver

